import Mathlib

/-!
Verification of the response-repair / normalization layer and the
pipeline-sequencing contract of the DiDi AI private-equity analyst app.

The embedding models the JavaScript runtime values flowing through
`src/services/geminiService.ts` and `src/App.tsx`:

* `Json` is the type of JavaScript values produced by `JSON.parse`
  (plus a `date` constructor produced only by the `dateReviver` used
  during hydration).  JSON numbers are kept in their literal form
  (sign, integer part, fraction digits, exponent); no claim in scope
  depends on floating-point rounding.
* `parseJson` is an executable model of `JSON.parse` (strict JSON
  grammar: no trailing commas, no comments, strings must use double
  quotes, unescaped control characters are rejected).  Unicode escape
  sequences denoting surrogate halves are outside the claims in scope.
* Property access `data.f` on a possibly-absent field is modelled by
  `getPropD : Json → String → Option Json` (`none` is `undefined`);
  accessing a property of `null` throws in JavaScript, which the
  normalizer model surfaces as an `Except.error`.
-/

/-- A JSON number literal: sign, integer part, fraction digits, optional
exponent.  `JSON.parse` produces a double; we keep the literal, which is
injective on all inputs appearing in the claims. -/
structure JNum where
  neg : Bool
  ip : Nat
  frac : List Nat
  expo : Option Int
deriving DecidableEq, Repr

/-- JavaScript values reachable from the code under verification.
`date` is produced only by the `dateReviver` during hydration. -/
inductive Json where
  | null
  | bool (b : Bool)
  | num (n : JNum)
  | str (s : String)
  | arr (xs : List Json)
  | obj (kvs : List (String × Json))
  | date (iso : String)
deriving Repr

/-- The number literal `0`. -/
def jzero : JNum := ⟨false, 0, [], none⟩

/-- An integer number literal. -/
def jint (n : Nat) : JNum := ⟨false, n, [], none⟩

/-- JSON whitespace as accepted by `JSON.parse`. -/
def jsonWs (c : Char) : Bool :=
  c = ' ' || c = '\t' || c = '\n' || c = '\r'

/-- Drop leading JSON whitespace. -/
def skipWs : List Char → List Char
  | [] => []
  | c :: cs => if jsonWs c then skipWs cs else c :: cs

/-- Hexadecimal digit value. -/
def hexVal (c : Char) : Option Nat :=
  if '0' ≤ c ∧ c ≤ '9' then some (c.toNat - '0'.toNat)
  else if 'a' ≤ c ∧ c ≤ 'f' then some (c.toNat - 'a'.toNat + 10)
  else if 'A' ≤ c ∧ c ≤ 'F' then some (c.toNat - 'A'.toNat + 10)
  else none

/-- Decimal digit value. -/
def digitVal (c : Char) : Option Nat :=
  if '0' ≤ c ∧ c ≤ '9' then some (c.toNat - '0'.toNat) else none

/-- Parse the body of a JSON string literal (the opening quote already
consumed); returns the decoded characters and the remainder after the
closing quote.  Mirrors the escape set of `JSON.parse`.  The fuel (any
bound of the input length) makes the recursion structural. -/
def parseStringBody : Nat → List Char → Option (List Char × List Char)
  | 0, _ => none
  | Nat.succ _, [] => none
  | Nat.succ fuel, c :: cs =>
    if c = '"' then some ([], cs)
    else if c = '\\' then
      match cs with
      | [] => none
      | e :: cs' =>
        if e = '"' then (fun r => ('"' :: r.1, r.2)) <$> parseStringBody fuel cs'
        else if e = '\\' then (fun r => ('\\' :: r.1, r.2)) <$> parseStringBody fuel cs'
        else if e = '/' then (fun r => ('/' :: r.1, r.2)) <$> parseStringBody fuel cs'
        else if e = 'b' then (fun r => ('\x08' :: r.1, r.2)) <$> parseStringBody fuel cs'
        else if e = 'f' then (fun r => ('\x0c' :: r.1, r.2)) <$> parseStringBody fuel cs'
        else if e = 'n' then (fun r => ('\n' :: r.1, r.2)) <$> parseStringBody fuel cs'
        else if e = 'r' then (fun r => ('\r' :: r.1, r.2)) <$> parseStringBody fuel cs'
        else if e = 't' then (fun r => ('\t' :: r.1, r.2)) <$> parseStringBody fuel cs'
        else if e = 'u' then
          match cs' with
          | h1 :: h2 :: h3 :: h4 :: rest =>
            match hexVal h1, hexVal h2, hexVal h3, hexVal h4 with
            | some a, some b, some c3, some d =>
              (fun r => (Char.ofNat (((a * 16 + b) * 16 + c3) * 16 + d) :: r.1, r.2)) <$>
                parseStringBody fuel rest
            | _, _, _, _ => none
          | _ => none
        else none
    else if c.toNat < 0x20 then none
    else (fun r => (c :: r.1, r.2)) <$> parseStringBody fuel cs

/-- Take a maximal run of decimal digits. -/
def spanDigits : List Char → List Nat × List Char
  | [] => ([], [])
  | c :: cs =>
    match digitVal c with
    | some d => let r := spanDigits cs; (d :: r.1, r.2)
    | none => ([], c :: cs)

/-- Digits to a natural number (most significant first). -/
def digitsToNat (ds : List Nat) : Nat :=
  ds.foldl (fun acc d => acc * 10 + d) 0

/-- Parse a JSON number literal (strict grammar: optional minus, `0` or a
nonzero-led digit run, optional fraction, optional exponent). -/
def parseNumber (cs : List Char) : Option (JNum × List Char) :=
  let (neg, cs1) := match cs with
    | '-' :: rest => (true, rest)
    | _ => (false, cs)
  match cs1 with
  | [] => none
  | c :: rest =>
    match digitVal c with
    | none => none
    | some d =>
      let (ipDigits, cs2) :=
        if c = '0' then ([0], rest)
        else let r := spanDigits rest; (d :: r.1, r.2)
      let (fracDigits, cs3) :=
        match cs2 with
        | '.' :: afterDot =>
          let r := spanDigits afterDot
          if r.1 = [] then ([], cs2) else (r.1, r.2)
        | _ => ([], cs2)
      let fracOk : Bool := match cs2 with
        | '.' :: afterDot => !(spanDigits afterDot).1.isEmpty
        | _ => true
      if !fracOk then none
      else
        match cs3 with
        | e :: afterE =>
          if e = 'e' ∨ e = 'E' then
            let (esign, cs4) := match afterE with
              | '+' :: r => ((1 : Int), r)
              | '-' :: r => ((-1 : Int), r)
              | _ => ((1 : Int), afterE)
            let r := spanDigits cs4
            if r.1 = [] then none
            else some (⟨neg, digitsToNat ipDigits, fracDigits,
                        some (esign * (digitsToNat r.1 : Int))⟩, r.2)
          else some (⟨neg, digitsToNat ipDigits, fracDigits, none⟩, cs3)
        | [] => some (⟨neg, digitsToNat ipDigits, fracDigits, none⟩, [])

/-- Insert a key into an association list the way JavaScript property
assignment does: an existing key keeps its position and takes the new
value, a new key is appended. -/
def insertKey (kvs : List (String × Json)) (k : String) (v : Json) :
    List (String × Json) :=
  match kvs with
  | [] => [(k, v)]
  | (k', v') :: rest =>
    if k' = k then (k', v) :: rest else (k', v') :: insertKey rest k v

mutual

/-- Parse one JSON value; fuel bounds the recursion depth. -/
def parseValue : Nat → List Char → Option (Json × List Char)
  | 0, _ => none
  | Nat.succ fuel, cs =>
    match skipWs cs with
    | [] => none
    | c :: rest =>
      if c = '{' then
        match skipWs rest with
        | '}' :: rest' => some (Json.obj [], rest')
        | _ => (fun r => (Json.obj r.1, r.2)) <$> parseObjItems fuel [] rest
      else if c = '[' then
        match skipWs rest with
        | ']' :: rest' => some (Json.arr [], rest')
        | _ => (fun r => (Json.arr r.1, r.2)) <$> parseArrItems fuel [] rest
      else if c = '"' then
        (fun r => (Json.str ⟨r.1⟩, r.2)) <$> parseStringBody rest.length rest
      else if c = 't' then
        match rest with
        | 'r' :: 'u' :: 'e' :: rest' => some (Json.bool true, rest')
        | _ => none
      else if c = 'f' then
        match rest with
        | 'a' :: 'l' :: 's' :: 'e' :: rest' => some (Json.bool false, rest')
        | _ => none
      else if c = 'n' then
        match rest with
        | 'u' :: 'l' :: 'l' :: rest' => some (Json.null, rest')
        | _ => none
      else
        (fun r => (Json.num r.1, r.2)) <$> parseNumber (c :: rest)

/-- Parse the members of a JSON array after `[` (at least one element). -/
def parseArrItems : Nat → List Json → List Char → Option (List Json × List Char)
  | 0, _, _ => none
  | Nat.succ fuel, acc, cs =>
    match parseValue fuel cs with
    | none => none
    | some (v, rest) =>
      match skipWs rest with
      | ',' :: rest' => parseArrItems fuel (acc ++ [v]) rest'
      | ']' :: rest' => some (acc ++ [v], rest')
      | _ => none

/-- Parse the members of a JSON object after `{` (at least one member).
Duplicate keys follow JavaScript semantics: the later value wins, the key
keeps its first position. -/
def parseObjItems : Nat → List (String × Json) → List Char →
    Option (List (String × Json) × List Char)
  | 0, _, _ => none
  | Nat.succ fuel, acc, cs =>
    match skipWs cs with
    | '"' :: rest =>
      match parseStringBody rest.length rest with
      | none => none
      | some (key, rest1) =>
        match skipWs rest1 with
        | ':' :: rest2 =>
          match parseValue fuel rest2 with
          | none => none
          | some (v, rest3) =>
            let acc' := insertKey acc ⟨key⟩ v
            match skipWs rest3 with
            | ',' :: rest4 => parseObjItems fuel acc' rest4
            | '}' :: rest4 => some (acc', rest4)
            | _ => none
        | _ => none
    | _ => none

end

/-- `JSON.parse` on a character list: one value, then only whitespace. -/
def parseJsonList (cs : List Char) : Option Json :=
  match parseValue (cs.length + 4) cs with
  | some (v, rest) => if skipWs rest = [] then some v else none
  | none => none

/-- `JSON.parse` on a string. -/
def parseJson (s : String) : Option Json :=
  parseJsonList s.data

/-! ## String utilities used by the sanitizer (`geminiService.ts`) -/

/-- Whitespace removed by JavaScript `String.prototype.trim` (the common
code points; exotic Unicode space separators do not occur in the data in
scope). -/
def isJsWs (c : Char) : Bool :=
  c = ' ' || c = '\t' || c = '\n' || c = '\r' || c = '\x0b' || c = '\x0c' ||
  c = ' ' || c = '﻿'

/-- Drop leading JavaScript whitespace. -/
def ltrimJS (cs : List Char) : List Char := cs.dropWhile isJsWs

/-- JavaScript `String.prototype.trim` on a character list. -/
def trimJS (cs : List Char) : List Char :=
  ((cs.dropWhile isJsWs).reverse.dropWhile isJsWs).reverse

/-- One pass of global literal replacement with the empty string, as
`text.replace(/pat/g, "")` does for a literal pattern: scan left to
right, delete each non-overlapping occurrence, continue after it. -/
def replAllGo (pat : List Char) : Nat → List Char → List Char
  | 0, cs => cs
  | _, [] => []
  | Nat.succ fuel, c :: cs =>
    if pat.isPrefixOf (c :: cs) then replAllGo pat fuel ((c :: cs).drop pat.length)
    else c :: replAllGo pat fuel cs

/-- Delete every occurrence of `pat` (left to right, non-overlapping). -/
def replAll (pat : List Char) (cs : List Char) : List Char :=
  replAllGo pat cs.length cs

/-- The pattern <backtick><backtick><backtick>json. -/
def fenceJsonPat : List Char := '`' :: '`' :: '`' :: 'j' :: 's' :: 'o' :: 'n' :: []

/-- The pattern of three backticks. -/
def fencePat : List Char := '`' :: '`' :: '`' :: []

/-- Index of the first occurrence of a character. -/
def idxOf? (c : Char) : List Char → Option Nat
  | [] => none
  | x :: xs => if x = c then some 0 else (idxOf? c xs).map (· + 1)

/-- Locate the start of the JSON payload exactly as `cleanAndParseJSON`
does: the earlier of the first curly brace and the first square bracket
(`none` when neither occurs). -/
def payloadStart (cs : List Char) : Option Nat :=
  match idxOf? '{' cs, idxOf? '[' cs with
  | some i, none => some i
  | some i, some j => if i < j then some i else some j
  | none, some j => some j
  | none, none => none

/-! ## `repairJSON` (`geminiService.ts` lines 8-60) -/

/-- Step 2 of `repairJSON`: count the double quotes that are not
preceded by a backslash character (`i === 0 || repaired[i-1] !== '\\'`),
carrying the previous character. -/
def countQuotes : Option Char → List Char → Nat
  | _, [] => 0
  | prev, c :: cs =>
    (if c = '"' ∧ prev ≠ some '\\' then 1 else 0) + countQuotes (some c) cs

/-- Step 3 of `repairJSON`: scan for unbalanced openers outside string
literals.  `prev` is the previous character, `inside` the in-string flag
toggled by a quote not preceded by a backslash, `stack` the expected
closers with the innermost first.  Returns the closers still expected at
the end of the text, innermost first — exactly the order in which the
source pops and appends them. -/
def balanceScan : Option Char → Bool → List Char → List Char → List Char
  | _, _, stack, [] => stack
  | prev, inside, stack, c :: cs =>
    if c = '"' ∧ prev ≠ some '\\' then balanceScan (some c) (!inside) stack cs
    else if inside then balanceScan (some c) inside stack cs
    else if c = '{' then balanceScan (some c) inside ('}' :: stack) cs
    else if c = '[' then balanceScan (some c) inside (']' :: stack) cs
    else if c = '}' ∨ c = ']' then
      match stack with
      | top :: rest =>
        if top = c then balanceScan (some c) inside rest cs
        else balanceScan (some c) inside stack cs
      | [] => balanceScan (some c) inside stack cs
    else balanceScan (some c) inside stack cs

/-- `repairJSON` on a character list: trim, drop one trailing comma,
close a dangling string when the quote count is odd, then append the
missing closers. -/
def repairChars (cs : List Char) : List Char :=
  let r0 := trimJS cs
  let r1 := if r0.getLast? = some ',' then r0.dropLast else r0
  let r2 := if countQuotes none r1 % 2 ≠ 0 then r1 ++ ['"'] else r1
  r2 ++ balanceScan none false [] r2

/-- `repairJSON` (`geminiService.ts` lines 8-60). -/
def repairJSON (s : String) : String := ⟨repairChars s.data⟩

/-! ## Spec-side description of the repair routine (for claim C3)

These definitions follow the words of spec section 4.1 step 4 / claim
C3, written independently of the source translation above: the quote
count is phrased over position/previous-character pairs and the bracket
scan as a left fold.  "Unescaped" is the notion both the spec and the
source use: a double quote not immediately preceded by a backslash
character. -/

/-- Spec step (a): drop a single trailing comma when the trimmed text
ends with one. -/
def specDropTrailingComma (cs : List Char) : List Char :=
  if cs.getLast? = some ',' then cs.dropLast else cs

/-- Each character paired with its predecessor (`none` at position 0). -/
def withPrev (cs : List Char) : List (Char × Option Char) :=
  cs.zip (none :: cs.map some)

/-- Spec step (b): the number of unescaped double quotes. -/
def specUnescapedQuoteCount (cs : List Char) : Nat :=
  (withPrev cs).countP (fun p => p.1 = '"' ∧ p.2 ≠ some '\\')

/-- Spec step (b): append one closing quote iff the count is odd. -/
def specCloseDanglingQuote (cs : List Char) : List Char :=
  if specUnescapedQuoteCount cs % 2 = 1 then cs ++ ['"'] else cs

/-- Spec step (c): one step of the closer-stack scan.  Outside strings,
an opener pushes its matching closer; an encountered closer pops only
when it equals the expected top of stack; mismatched closers are left
uncorrected.  An unescaped quote toggles the in-string flag. -/
def specScanStep (st : Bool × List Char) (p : Char × Option Char) :
    Bool × List Char :=
  if p.1 = '"' ∧ p.2 ≠ some '\\' then (!st.1, st.2)
  else if st.1 then st
  else if p.1 = '{' then (st.1, '}' :: st.2)
  else if p.1 = '[' then (st.1, ']' :: st.2)
  else if p.1 = '}' ∨ p.1 = ']' then
    match st.2 with
    | top :: rest => if top = p.1 then (st.1, rest) else st
    | [] => st
  else st

/-- Spec steps (c)+(d): the closers remaining on the stack, in the LIFO
order in which they are appended. -/
def specMissingClosers (cs : List Char) : List Char :=
  ((withPrev cs).foldl specScanStep (false, [])).2

/-- The repair routine as the spec states it: trim, then stages (a),
(b), (c)/(d) in order. -/
def repairSpec (s : String) : String :=
  let r := specCloseDanglingQuote (specDropTrailingComma (trimJS s.data))
  ⟨r ++ specMissingClosers r⟩

/-! ## `cleanAndParseJSON` (`geminiService.ts` lines 63-96) -/

/-- `cleanAndParseJSON`: on falsy (empty) text return the empty object;
strip code-fence markers, trim, cut everything before the first curly
brace or square bracket, then parse, once directly and once after
repair.  The `Except.error` case models the thrown `JSONParseError`. -/
def cleanAndParseJSON (text : String) : Except String Json :=
  if text = "" then .ok (Json.obj [])
  else
    let noFences := replAll fencePat (replAll fenceJsonPat text.data)
    let trimmed := trimJS noFences
    let clean := match payloadStart trimmed with
      | some i => trimmed.drop i
      | none => trimmed
    match parseJsonList clean with
    | some v => .ok v
    | none =>
      match parseJsonList (repairChars clean) with
      | some v => .ok v
      | none => .error "JSON Parse Failed"

/-! ## JavaScript value helpers -/

/-- Is a JSON number literal the number zero (`0`, `0.0`, `-0`, ...)? -/
def jnumIsZero (n : JNum) : Bool :=
  n.ip = 0 ∧ n.frac.all (· = 0)

/-- JavaScript truthiness of the values in scope (`NaN` cannot arise
from `JSON.parse`). -/
def truthy : Json → Bool
  | .null => false
  | .bool b => b
  | .num n => !jnumIsZero n
  | .str s => s ≠ ""
  | .arr _ => true
  | .obj _ => true
  | .date _ => true

/-- First binding of a key in an association list (the lists built by
the parser and the normalizer carry each key at most once). -/
def lookupKey (kvs : List (String × Json)) (k : String) : Option Json :=
  match kvs with
  | [] => none
  | (k', v) :: rest => if k' = k then some v else lookupKey rest k

/-- Property access `j.k`: a value on objects holding the key, `none`
(that is, `undefined`) otherwise.  Reading a property of `null` throws
in JavaScript; the callers below either guard against `null` or surface
the throw as an `Except.error`. -/
def getPropD (j : Json) (k : String) : Option Json :=
  match j with
  | .obj kvs => lookupKey kvs k
  | _ => none

/-- `x || dflt` on a possibly-undefined property value. -/
def jsOr (x : Option Json) (dflt : Json) : Json :=
  match x with
  | some v => if truthy v then v else dflt
  | none => dflt

/-- The own enumerable entries contributed by `...j` in an object
literal: fields of an object, indexed elements of an array, indexed
characters of a string, nothing for primitives. -/
def spreadFields : Json → List (String × Json)
  | .obj kvs => kvs
  | .arr xs => (xs.enum.map fun p => (toString p.1, p.2))
  | .str s => (s.data.enum.map fun p => (toString p.1, Json.str ⟨[p.2]⟩))
  | _ => []

/-- Object spread `{...base, ...override}`: keys of `base` keep
their position, `override` updates values and appends new keys. -/
def mergeSpread (base override : List (String × Json)) :
    List (String × Json) :=
  override.foldl (fun acc p => insertKey acc p.1 p.2) base

/-- Property assignment `j.k = v` on an object. -/
def setProp (j : Json) (k : String) (v : Json) : Json :=
  match j with
  | .obj kvs => .obj (insertKey kvs k v)
  | _ => j

/-! ## `sanitizeDealData` (`geminiService.ts` lines 99-149) -/

/-- The `defaultMemo` literal of `sanitizeDealData`. -/
def defaultMemoFields : List (String × Json) :=
  [("executiveSummary", .str "Pending generation..."),
   ("investmentRecommendation", .str "HOLD"),
   ("recommendationRationale", .str "Insufficient data for recommendation."),
   ("dealMerits", .arr []),
   ("investmentThesis", .arr []),
   ("keyRisks", .arr []),
   ("riskMitigation", .str "N/A"),
   ("marketOverview", .str "N/A"),
   ("competitiveLandscape", .str "N/A"),
   ("customerAnalysis", .str "N/A"),
   ("operationalUpside", .str "N/A")]

/-- Default skeleton for `financialModels`. -/
def defaultFinancialModels : Json :=
  .obj [("years", .arr [.str "LTM"]),
        ("incomeStatement", .obj [("title", .str "Income Statement"), ("rows", .arr [])]),
        ("balanceSheet", .obj [("title", .str "Balance Sheet"), ("rows", .arr [])]),
        ("cashFlow", .obj [("title", .str "Cash Flow"), ("rows", .arr [])])]

/-- Default for `lboModel` (the source spells the last key `debttoEquity`). -/
def defaultLboModel : Json :=
  .obj [("entryMultiple", .num jzero), ("exitMultiple", .num jzero),
        ("irr", .num jzero), ("moic", .num jzero), ("debttoEquity", .num jzero)]

/-- Default for `lboDetailed`. -/
def defaultLboDetailed : Json :=
  .obj [("assumptions", .arr []), ("sources", .arr []), ("uses", .arr []),
        ("debtSchedule", .obj [("title", .str "Debt Schedule"), ("rows", .arr [])]),
        ("projectedReturns", .obj [("title", .str "Returns"), ("rows", .arr [])])]

/-- The object literal `sanitizeDealData` returns, given the parsed
value `d` and the fallback `companyName`. -/
def sanitizedFields (d : Json) (companyName : String) : List (String × Json) :=
  [("companyName",
    jsOr (getPropD d "companyName")
      (jsOr (some (Json.str companyName)) (.str "Target Company"))),
   ("sector", jsOr (getPropD d "sector") (.str "Unknown Sector")),
   ("location", jsOr (getPropD d "location") (.str "N/A")),
   ("ebitda", jsOr (getPropD d "ebitda") (.num jzero)),
   ("revenue", jsOr (getPropD d "revenue") (.num jzero)),
   ("askingMultiple", jsOr (getPropD d "askingMultiple") (.num jzero)),
   ("impliedValue", jsOr (getPropD d "impliedValue") (.num jzero)),
   ("financialModels", jsOr (getPropD d "financialModels") defaultFinancialModels),
   ("lboModel", jsOr (getPropD d "lboModel") defaultLboModel),
   ("lboDetailed", jsOr (getPropD d "lboDetailed") defaultLboDetailed),
   ("memo", .obj (mergeSpread defaultMemoFields
      (spreadFields (jsOr (getPropD d "memo") (.obj []))))),
   ("sensitivityAnalysis", jsOr (getPropD d "sensitivityAnalysis") (.arr [])),
   ("comparables", jsOr (getPropD d "comparables") (.arr [])),
   ("candidatesAnalyzed", jsOr (getPropD d "candidatesAnalyzed") (.arr [])),
   ("groundingUrls", jsOr (getPropD d "groundingUrls") (.arr [])),
   ("deliverables", jsOr (getPropD d "deliverables") (.arr []))]

/-- `sanitizeDealData`: reading `data.companyName` on `null` throws a
`TypeError` in JavaScript (surfaced as `Except.error`); on every other
value the function returns the fully-shaped record. -/
def sanitizeDealData (d : Json) (companyName : String) : Except String Json :=
  match d with
  | .null => .error "TypeError: Cannot read properties of null"
  | _ => .ok (.obj (sanitizedFields d companyName))

/-! ## `generateDealStructure` (`geminiService.ts` lines 426-620)

Only the response post-processing is in scope: the external model call
is replaced by its response text, the sole input the subsequent code
reads.  The `catch` wraps any failure message. -/

/-- `generateDealStructure` given the model response text: parse
(`response.text || "{}"`), sanitize, then overwrite
`candidatesAnalyzed` with the `candidates` argument. -/
def generateDealStructure (responseText : String) (companyName : String)
    (candidates : List String) : Except String Json :=
  match cleanAndParseJSON (if responseText = "" then "\x7b\x7d" else responseText) with
  | .error e => .error ("Structure Generation Failed: " ++ e)
  | .ok rawJSON =>
    match sanitizeDealData rawJSON companyName with
    | .error e => .error ("Structure Generation Failed: " ++ e)
    | .ok data =>
      .ok (setProp data "candidatesAnalyzed" (.arr (candidates.map Json.str)))

/-! ## `generateConceptImage` (`geminiService.ts` lines 625-668)

The two `generateWithModel` invocations are modelled by an oracle from
the call (model identifier and config) to the outcome.  The function
also returns the list of calls it made, in order, so that the retry
discipline can be stated. -/

/-- The `imageConfig` object built by `generateWithModel`. -/
structure ImageConfig where
  aspectRatio : String
  imageSize : Option String
deriving DecidableEq, Repr

/-- One invocation of the image model. -/
structure ImageCall where
  model : String
  config : ImageConfig
deriving DecidableEq, Repr

/-- One part of a model response; `inlineData` carries base64 image
data when present. -/
structure ImagePart where
  inlineData : Option String
deriving DecidableEq, Repr

/-- A response from the image model: the parts of the first candidate
(`response.candidates?.[0]?.content?.parts || []`). -/
structure ImageResponse where
  parts : List ImagePart
deriving DecidableEq, Repr

/-- `generateWithModel`'s call record: `imageConfig.aspectRatio` is
always `"1:1"`; `imageSize` is set only under the advanced config. -/
def imageCallFor (model : String) (useAdvancedConfig : Bool) : ImageCall :=
  ⟨model, ⟨"1:1", if useAdvancedConfig then some "1K" else none⟩⟩

/-- The loop over response parts: the first `inlineData` as a data URI. -/
def firstInlineImage (r : ImageResponse) : Option String :=
  match r.parts.filterMap (·.inlineData) with
  | [] => none
  | d :: _ => some ("data:image/png;base64," ++ d)

/-- Is the failure message a permission/quota-class error
(`403`, `PERMISSION_DENIED` or `Quota` as a substring)? -/
def isPermQuotaError (msg : String) : Bool :=
  (msg.splitOn "403").length > 1 ∨
  (msg.splitOn "PERMISSION_DENIED").length > 1 ∨
  (msg.splitOn "Quota").length > 1

/-- The primary image call made by `generateConceptImage`. -/
def primaryImageCall : ImageCall := imageCallFor "gemini-3-pro-image-preview" true

/-- The fallback image call made by `generateConceptImage`. -/
def fallbackImageCall : ImageCall := imageCallFor "gemini-2.5-flash-image" false

/-- `generateConceptImage`: primary model first; on a permission/quota
failure retry once against the fallback model without `imageSize`; every
other path yields `none`.  All failures are caught, so the embedded
function is total — the source never rejects.  Returns the result and
the calls made, in order. -/
def generateConceptImage (oracle : ImageCall → Except String ImageResponse) :
    Option String × List ImageCall :=
  match oracle primaryImageCall with
  | .ok resp => (firstInlineImage resp, [primaryImageCall])
  | .error e =>
    if isPermQuotaError e then
      match oracle fallbackImageCall with
      | .ok resp2 => (firstInlineImage resp2, [primaryImageCall, fallbackImageCall])
      | .error _ => (none, [primaryImageCall, fallbackImageCall])
    else (none, [primaryImageCall])

/-! ## Hydration of the deal collection (`App.tsx` lines 77-102) -/

/-- Does a string start with the ISO date shape
`dddd-dd-ddTdd:dd:dd` tested by `dateReviver`? -/
def isIsoDatePrefix (cs : List Char) : Bool :=
  match cs with
  | y1 :: y2 :: y3 :: y4 :: '-' :: m1 :: m2 :: '-' :: d1 :: d2 :: 'T' ::
      h1 :: h2 :: ':' :: mi1 :: mi2 :: ':' :: s1 :: s2 :: _ =>
    [y1, y2, y3, y4, m1, m2, d1, d2, h1, h2, mi1, mi2, s1, s2].all (·.isDigit)
  | _ => false

mutual

/-- The `dateReviver` applied bottom-up as `JSON.parse(text, reviver)`
does: strings matching the ISO prefix become `Date` values. -/
def reviveDates : Json → Json
  | .str s => if isIsoDatePrefix s.data then .date s else .str s
  | .arr xs => .arr (reviveDatesList xs)
  | .obj kvs => .obj (reviveDatesKVs kvs)
  | j => j

/-- `reviveDates` over the elements of an array. -/
def reviveDatesList : List Json → List Json
  | [] => []
  | x :: xs => reviveDates x :: reviveDatesList xs

/-- `reviveDates` over the values of an object. -/
def reviveDatesKVs : List (String × Json) → List (String × Json)
  | [] => []
  | (k, v) :: rest => (k, reviveDates v) :: reviveDatesKVs rest

end

/-- `JSON.parse(text, dateReviver)`. -/
def parseJsonRevive (s : String) : Option Json :=
  (parseJson s).map reviveDates

/-- The `DealRoom` object built by the legacy migration, as a JavaScript
value; `now` stands for `new Date()`. -/
def wrapLegacyDeal (parsed : Json) (now : String) : Json :=
  .obj [("id", .str "legacy-migration"),
        ("title", (getPropD parsed "companyName").getD .null),
        ("stage", .str "Diligence"),
        ("data", parsed),
        ("createdAt", .date now),
        ("lastUpdated", .date now),
        ("tags", .arr [.str "Migrated"]),
        ("priority", .str "Medium")]

/-- The legacy-migration branch of the `deals` state initializer: the
guard `if (oldDealData)` is string truthiness, false both for a missing
`didi_dealData` key (`getItem` returned null) and for a stored empty
string; a deal-shaped parse — truthy with a truthy `companyName` — is
wrapped into a one-element collection, and every other path falls back
to `[]` (a parse failure throws into the shared catch). -/
def hydrateLegacy (oldVal : Option String) (now : String) : Json :=
  match oldVal with
  | some s =>
    if s = "" then .arr []
    else
      match parseJsonRevive s with
      | none => .arr []
      | some parsed =>
        if truthy parsed ∧ truthy ((getPropD parsed "companyName").getD .null) then
          .arr [wrapLegacyDeal parsed now]
        else .arr []
  | none => .arr []

/-- The `deals` state initializer: `if (savedDeals)` is string
truthiness, so the stored `didi_deals` value is parsed and returned
only when the key is present with a non-empty string — a missing key
and a stored empty string both fall through to the legacy-migration
branch; a parse failure of a truthy string throws into the catch and
yields `[]`.  `newVal`/`oldVal` are the `localStorage.getItem` results
for the two keys. -/
def hydrateDeals (newVal oldVal : Option String) (now : String) : Json :=
  match newVal with
  | some s =>
    if s = "" then hydrateLegacy oldVal now
    else
      match parseJsonRevive s with
      | some j => j
      | none => .arr []
  | none => hydrateLegacy oldVal now

/-! ## Application state (`App.tsx`)

Identifiers and timestamps produced from `Date.now()` /
`performance.now()` are environment-dependent and carry no claim in
scope; log ids, message ids, timestamps and latencies are omitted from
the records below.  React state updates are modelled by threading an
explicit `AppState`. -/

/-- `AgentRole` (`types.ts`). -/
inductive AgentRole where
  | MD | VP | ASSOCIATE | SCOUT | COMPS | DILIGENCE | DESIGN
deriving DecidableEq, Repr

/-- `AgentStatus` (`types.ts`). -/
inductive AgentStatus where
  | idle | thinking | working | completed | error
deriving DecidableEq, Repr

/-- `Agent` (`types.ts`). -/
structure Agent where
  id : String
  role : AgentRole
  name : String
  status : AgentStatus
  currentTask : Option String := none
  description : String
deriving DecidableEq, Repr

/-- The error detail recorded by a failed step (`message` and `context`;
the raw stack text is a runtime artifact and is omitted). -/
structure StepError where
  message : String
  context : String
deriving DecidableEq, Repr

/-- `LogEntry` (`types.ts`), without id/timestamp/latency. -/
structure LogEntry where
  traceId : Option String
  agentName : String
  role : AgentRole
  message : String
  status : AgentStatus
  errorDetails : Option StepError := none
deriving DecidableEq, Repr

/-- Message roles. -/
inductive MsgRole where
  | user | model | system
deriving DecidableEq, Repr

/-- `Message` (`types.ts`), the fields the claims touch. -/
structure Message where
  dealId : Option String
  role : MsgRole
  content : String
  sender : Option String
deriving DecidableEq, Repr

/-- `DealRoom` (`types.ts`): `title` and `data` are untyped at runtime
and kept as JavaScript values; `createdAt`/`lastUpdated` omitted. -/
structure DealRoom where
  id : String
  title : Json
  stage : String
  data : Json
  tags : List String
  priority : String

/-- The state slices of `App` that the pipeline mutates. -/
structure AppState where
  agents : List Agent
  deals : List DealRoom
  activeDealId : Option String
  messages : List Message
  logs : List LogEntry
  isProcessing : Bool
  activeEdge : Option String

/-- `INITIAL_AGENTS` (`App.tsx` lines 43-51). -/
def INITIAL_AGENTS : List Agent :=
  [⟨"1", .MD, "Athena (MD)", .idle, none, "Strategy & Risk"⟩,
   ⟨"2", .VP, "Marcus (VP)", .idle, none, "Orchestration"⟩,
   ⟨"3", .ASSOCIATE, "Ken (Associate)", .idle, none, "Modeling"⟩,
   ⟨"4", .SCOUT, "Scout-Alpha", .idle, none, "Data Mining"⟩,
   ⟨"5", .DILIGENCE, "Sarah (Diligence)", .idle, none, "Doc Analysis"⟩,
   ⟨"6", .COMPS, "Comps-Beta", .idle, none, "Market Multiples"⟩,
   ⟨"7", .DESIGN, "Sienna (Design)", .idle, none, "Visual Assets"⟩]

/-- `updateAgent` with both `status` and `currentTask` in the update. -/
def updateAgentFull (st : AppState) (role : AgentRole) (status : AgentStatus)
    (task : Option String) : AppState :=
  { st with agents := st.agents.map fun a =>
      if a.role = role then { a with status := status, currentTask := task } else a }

/-- `updateAgent` with only `status` in the update. -/
def updateAgentStatus (st : AppState) (role : AgentRole)
    (status : AgentStatus) : AppState :=
  { st with agents := st.agents.map fun a =>
      if a.role = role then { a with status := status } else a }

/-- `updateAllAgents({ status: ERROR })`. -/
def setAllAgentsError (st : AppState) : AppState :=
  { st with agents := st.agents.map fun a => { a with status := .error } }

/-- `addMessage`: append a message tagged with the active deal id. -/
def addMessage (st : AppState) (role : MsgRole) (content : String)
    (sender : Option String) : AppState :=
  { st with messages := st.messages ++
      [{ dealId := st.activeDealId, role := role, content := content,
         sender := sender }] }

/-- Append a log entry (`setLogs(prev => [...prev, entry])`). -/
def appendLog (st : AppState) (e : LogEntry) : AppState :=
  { st with logs := st.logs ++ [e] }

/-- The agent name resolved by `runStep` from `INITIAL_AGENTS`. -/
def agentNameFor (role : AgentRole) : String :=
  ((INITIAL_AGENTS.find? fun a => a.role == role).map (·.name)).getD "Unknown"

/-- `runStep` (`App.tsx` lines 258-310): mark the agent working, run the
work (its outcome is the `Except` argument — the wrapped call is one
external-model invocation that does not touch app state), then append
exactly one log record and leave the agent idle on success or errored on
failure, re-throwing the original error. -/
def runStep {α : Type} (st : AppState) (agentRole : AgentRole)
    (description : String) (outcome : Except String α) (traceId : String) :
    AppState × Except String α :=
  let st1 := updateAgentFull st agentRole .working (some description)
  match outcome with
  | .ok result =>
    let st2 := appendLog st1
      { traceId := some traceId, agentName := agentNameFor agentRole,
        role := agentRole, message := description ++ " - Completed",
        status := .completed }
    (updateAgentFull st2 agentRole .idle (some "Standby"), .ok result)
  | .error e =>
    let st2 := appendLog st1
      { traceId := some traceId, agentName := agentNameFor agentRole,
        role := agentRole, message := "FAILED: " ++ description,
        status := .error,
        errorDetails := some ⟨e, description⟩ }
    (updateAgentFull st2 agentRole .error (some "Error encountered"), .error e)

/-- The default `data` of a room built by `createNewDealRoom`
(`App.tsx` lines 229-250). -/
def newDealData (title : String) : Json :=
  .obj [("companyName", .str title),
        ("sector", .str "TBD"),
        ("ebitda", .num jzero),
        ("revenue", .num jzero),
        ("askingMultiple", .num jzero),
        ("impliedValue", .num jzero),
        ("lboModel", .obj [("entryMultiple", .num jzero), ("exitMultiple", .num jzero),
                           ("irr", .num jzero), ("moic", .num jzero),
                           ("debttoEquity", .num jzero)]),
        ("memo", .obj [("executiveSummary", .str "Pending..."),
                       ("investmentRecommendation", .str "HOLD"),
                       ("recommendationRationale", .str "Data needed."),
                       ("dealMerits", .arr []),
                       ("investmentThesis", .arr []),
                       ("keyRisks", .arr []),
                       ("riskMitigation", .str "N/A"),
                       ("marketOverview", .str "N/A"),
                       ("competitiveLandscape", .str "N/A"),
                       ("customerAnalysis", .str "N/A"),
                       ("operationalUpside", .str "N/A")])]

/-- The room object built by `createNewDealRoom`; `newId` stands for
`Date.now().toString()`. -/
def newDealRoom (newId title : String) : DealRoom :=
  { id := newId, title := .str title, stage := "Sourcing",
    data := newDealData title, tags := [], priority := "Medium" }

/-- `{ ...a, ...b }` on JavaScript values. -/
def jsObjMerge (a b : Json) : Json :=
  .obj (mergeSpread (spreadFields a) (spreadFields b))

/-- `updateActiveDeal` (`App.tsx` lines 204-217): merge `updates` into
the data of the active room and optionally override the title. -/
def updateActiveDeal (st : AppState) (updates : Json)
    (titleOverride : Option Json) : AppState :=
  match st.activeDealId with
  | none => st
  | some anId =>
    { st with deals := st.deals.map fun d =>
        if d.id = anId then
          { d with
            title := match titleOverride with
              | some t => if truthy t then t else d.title
              | none => d.title,
            data := jsObjMerge d.data updates }
        else d }

/-! ## The sourcing flow of `handleUserMessage` (`App.tsx` lines 423-612)

External calls are replaced by their outcomes (`SourcingOracle`); the
returned list records which external steps were invoked, in order.  The
cosmetic comps placeholder, concurrent with the deep dive in the source,
is sequentialized after it — both orders commute on the state fields the
claims mention.  The source component closes over the render-time
`activeDealId` when tagging messages; here messages are tagged with the
id of the threaded state, a difference outside the claims in scope. -/

/-- Outcomes of the external calls a sourcing run can make. -/
structure SourcingOracle where
  mdStrategy : Except String String
  scout : Except String (List String)
  select : Except String String
  deepDive : Except String (String × List String)
  structuring : Except String Json
  verifyLoc : Except String (List String)
  conceptImage : Option String
  finalOpinion : Except String String

/-- The `catch` block of `handleUserMessage` (lines 603-607). -/
def pipelineCatch (st : AppState) (e : String) : AppState :=
  setAllAgentsError (addMessage st .system
    ("Pipeline Execution Failed: " ++ e ++ ". \n\nCheck the System Log for details.")
    (some "SYSTEM"))

/-- The `finally` block of `handleUserMessage` (lines 608-611). -/
def pipelineFinally (st : AppState) : AppState :=
  { st with isProcessing := false, activeEdge := none }

/-- The error thrown when the scout returns no candidates (line 504). -/
def zeroTargetsMsg : String :=
  "Scout returned 0 targets. Try refining your search criteria."

/-- The tail of the sourcing flow from the location-verification step
(after `structuredData` was produced and `locationMaps` resolved). -/
def sourcingTail (o : SourcingOracle) (traceId : String)
    (deepDiveSources : List String) (structuredData : Json)
    (locationMaps : List String) (st : AppState) (calls : List String) :
    AppState × List String :=
  let sd1 := setProp structuredData "groundingUrls"
    (.arr ((deepDiveSources ++ locationMaps).map Json.str))
  let sd2 := if locationMaps ≠ [] then
      setProp sd1 "location" (.str "HQ Verified via Google Maps")
    else sd1
  let st := updateActiveDeal st sd2 (some ((getPropD sd2 "companyName").getD .null))
  let (st, calls) :=
    if truthy ((getPropD sd2 "companyName").getD .null) then
      let (st, _img) := runStep st .VP "Generating Asset (Logo)"
        (Except.ok (ε := String) o.conceptImage) traceId
      (st, calls ++ ["conceptImage"])
    else (st, calls)
  let st := { st with activeEdge := some "ASSOCIATE-MD" }
  let st := updateAgentFull st .MD .thinking (some "Final Investment Committee Review...")
  let (st, r) := runStep st .MD "Formulating Investment Opinion" o.finalOpinion traceId
  let calls := calls ++ ["finalOpinion"]
  match r with
  | .error e => (pipelineFinally (pipelineCatch st e), calls)
  | .ok finalOpinion =>
    (pipelineFinally (addMessage st .model finalOpinion (some "Athena (MD)")), calls)

/-- The sourcing flow continuation after a non-empty candidate list. -/
def sourcingAfterTargets (o : SourcingOracle) (traceId : String)
    (potentialTargets : List String) (st : AppState) (calls : List String) :
    AppState × List String :=
  let st := appendLog st
    { traceId := some traceId, agentName := "Scout-Alpha", role := .SCOUT,
      message := "Identified candidates: " ++ String.intercalate ", " potentialTargets,
      status := .completed }
  let st := updateAgentFull st .VP .thinking
    (some ("Selecting best fit from: " ++ toString potentialTargets.length ++ " candidates..."))
  let (st, r3) := runStep st .VP "Target Filtering & Selection" o.select traceId
  let calls := calls ++ ["select"]
  match r3 with
  | .error e => (pipelineFinally (pipelineCatch st e), calls)
  | .ok bestTarget =>
    let st := { st with activeEdge := some "VP-SCOUT" }
    let (st, r4) := runStep st .SCOUT
      ("Triangulated Deep Dive: " ++ bestTarget ++ " (Financials/News/Benchmarks)")
      o.deepDive traceId
    let calls := calls ++ ["deepDive"]
    let st := updateAgentFull st .COMPS .working (some "Spreading Multiples...")
    match r4 with
    | .error e => (pipelineFinally (pipelineCatch st e), calls)
    | .ok deepDiveData =>
      let st := appendLog st
        { traceId := some traceId, agentName := "Comps-Beta", role := .COMPS,
          message := "Comparable Set Analysis (Simulated)", status := .completed }
      let st := updateAgentStatus st .COMPS .idle
      let st := { st with activeEdge := some "VP-ASSOCIATE" }
      let (st, r5) := runStep st .ASSOCIATE
        "Constructing LBO & Financial Models (Gap Filling Active)" o.structuring traceId
      let calls := calls ++ ["structuring"]
      match r5 with
      | .error e => (pipelineFinally (pipelineCatch st e), calls)
      | .ok structuredData =>
        if truthy ((getPropD structuredData "companyName").getD .null) then
          let (st, r6) := runStep st .SCOUT "HQ Location Verification" o.verifyLoc traceId
          let calls := calls ++ ["verifyLocation"]
          match r6 with
          | .error e => (pipelineFinally (pipelineCatch st e), calls)
          | .ok locationMaps =>
            sourcingTail o traceId deepDiveData.2 structuredData locationMaps st calls
        else
          sourcingTail o traceId deepDiveData.2 structuredData [] st calls

/-- The sourcing flow of `handleUserMessage`: user message, processing
flag, room creation when no deal is active, then the strict chain
strategy → scout → (zero-candidate check) → select → deep dive →
structuring → location verification → concept image → final opinion,
with the shared catch/finally. -/
def runSourcing (st0 : AppState) (o : SourcingOracle) (text : String)
    (traceId newDealId : String) : AppState × List String :=
  let st := addMessage st0 .user text none
  let st := { st with isProcessing := true }
  let st := match st.activeDealId with
    | none =>
      { st with deals := st.deals ++ [newDealRoom newDealId "Sourcing Scan"],
                activeDealId := some newDealId }
    | some _ => st
  let (st, r1) := runStep st .MD "Analyzing Mandate & Strategy" o.mdStrategy traceId
  let calls := ["mdStrategy"]
  match r1 with
  | .error e => (pipelineFinally (pipelineCatch st e), calls)
  | .ok mdStrategy =>
    let st := addMessage st .model mdStrategy (some "Athena (MD)")
    let st := updateAgentStatus st .MD .idle
    let st := updateAgentFull st .VP .working (some "Dispatching Scout Swarm...")
    let st := { st with activeEdge := some "MD-VP" }
    let (st, r2) := runStep st .SCOUT "Market Scan & Sourcing (Live Web)" o.scout traceId
    let calls := calls ++ ["scout"]
    match r2 with
    | .error e => (pipelineFinally (pipelineCatch st e), calls)
    | .ok potentialTargets =>
      let st := { st with activeEdge := some "VP-SCOUT" }
      if potentialTargets.length = 0 then
        (pipelineFinally (pipelineCatch st zeroTargetsMsg), calls)
      else
        sourcingAfterTargets o traceId potentialTargets st calls

/-! ## Shape predicates for the Deal Record claims -/

/-- Is the value an object? -/
def isObjJ : Json → Bool
  | .obj _ => true
  | _ => false

/-- Is the value an array? -/
def isArrJ : Json → Bool
  | .arr _ => true
  | _ => false

/-- Does the value carry the property? -/
def hasProp (j : Json) (k : String) : Bool :=
  (getPropD j k).isSome

/-- The documented top-level Deal Record fields, in source order. -/
def dealFieldKeys : List String :=
  ["companyName", "sector", "location", "ebitda", "revenue",
   "askingMultiple", "impliedValue", "financialModels", "lboModel",
   "lboDetailed", "memo", "sensitivityAnalysis", "comparables",
   "candidatesAnalyzed", "groundingUrls", "deliverables"]

/-- The documented memo fields. -/
def memoKeys : List String :=
  ["executiveSummary", "investmentRecommendation", "recommendationRationale",
   "dealMerits", "investmentThesis", "keyRisks", "riskMitigation",
   "marketOverview", "competitiveLandscape", "customerAnalysis",
   "operationalUpside"]

/-- Documented container type of each composite Deal Record field. -/
def containerKindOf : List (String × (Json → Bool)) :=
  [("financialModels", isObjJ), ("lboModel", isObjJ), ("lboDetailed", isObjJ),
   ("memo", isObjJ), ("sensitivityAnalysis", isArrJ), ("comparables", isArrJ),
   ("candidatesAnalyzed", isArrJ), ("groundingUrls", isArrJ),
   ("deliverables", isArrJ)]

/-- A field of `d`, when present and truthy, satisfies `p`. -/
def fieldRespects (d : Json) (k : String) (p : Json → Bool) : Bool :=
  match getPropD d k with
  | some v => !truthy v || p v
  | none => true

/-- The input range of the normalizer-totality claim: the composite
fields, when supplied and truthy, already have the documented container
type (leaf values are unconstrained). -/
def wellShapedInput (d : Json) : Bool :=
  containerKindOf.all fun p => fieldRespects d p.1 p.2

/-- The normalizer-totality conclusion: every documented top-level field
present, every composite field of the documented container type, and
every documented memo field present. -/
def dealShapeOK (j : Json) : Bool :=
  dealFieldKeys.all (hasProp j) &&
  containerKindOf.all (fun p => p.2 ((getPropD j p.1).getD .null)) &&
  memoKeys.all (hasProp ((getPropD j "memo").getD .null))

/-! ## Concrete texts appearing in the claims -/

/-- The truncated structuring response of the C1 scenario. -/
def c1ResponseText : String :=
  "\x7b\"companyName\":\"Acme\",\"ebitda\":12,\"lboModel\":\x7b\"irr\":25,"

/-- The markdown-wrapped array of the C4 scenario. -/
def c4ScenarioText : String :=
  "Sure, here are the results:\n```json\n[\"Acme\",\"Globex\"]\n```"

/-- A valid JSON document (`["Acme"]`) surrounded by prose on both
sides; the leading prose contains a curly brace and the trailing prose
is not whitespace. -/
def c4ProseWrappedText : String :=
  "See \x7b this: [\"Acme\"] done"

/-- The model response text used to witness the `candidatesAnalyzed`
overwrite: the parsed JSON itself supplies a different value. -/
def c10ResponseText : String :=
  "\x7b\"candidatesAnalyzed\":[\"X\"]\x7d"

/-- A legacy single-deal blob for the hydration-migration witness. -/
def c8LegacyText : String :=
  "\x7b\"companyName\":\"Acme\"\x7d"

/-- The agents carrying a given role. -/
def agentsWithRole (st : AppState) (role : AgentRole) : List Agent :=
  st.agents.filter fun a => a.role == role

/-- Do all listed agents carry the given status? -/
def allStatus (l : List Agent) (s : AgentStatus) : Bool :=
  l.all fun a => a.status == s

/-- Prose that contains no payload-start character and no backtick
(the restriction the C4 amendment needs for the leading prose). -/
def noPayloadChars (cs : List Char) : Bool :=
  cs.all fun c => !(c = '{' || c = '[' || c = '`')

/-- No backtick characters. -/
def noBackticks (cs : List Char) : Bool :=
  cs.all fun c => c != '`'

/-- Does the text start with a curly brace or a square bracket? -/
def startsWithBracket (cs : List Char) : Bool :=
  match cs with
  | c :: _ => c = '{' || c = '[' 
  | [] => false

/-- Is the last character present and not JavaScript whitespace? -/
def endsNonWs (cs : List Char) : Bool :=
  match cs.getLast? with
  | some c => !isJsWs c
  | none => false

/-! # Theorems -/

/-! ## Repair routine: the source equals the spec description (C3) -/

theorem countQuotes_eq_countP (cs : List Char) : ∀ prev,
    countQuotes prev cs =
      (cs.zip (prev :: cs.map some)).countP
        (fun p => p.1 = '"' ∧ p.2 ≠ some '\\') := by
  induction cs with
  | nil => intro prev; simp [countQuotes]
  | cons c cs ih =>
    intro prev
    have hz : (c :: cs).zip (prev :: (c :: cs).map some) =
        (c, prev) :: cs.zip (some c :: cs.map some) := rfl
    have lhs : countQuotes prev (c :: cs) =
        (if c = '"' ∧ prev ≠ some '\\' then 1 else 0) + countQuotes (some c) cs := rfl
    rw [lhs, hz, List.countP_cons, ← ih (some c)]
    by_cases h : (c = '"' ∧ prev ≠ some '\\') <;> simp [h] <;> omega

theorem balanceScan_eq_foldl_pair (cs : List Char) : ∀ prev (st : Bool × List Char),
    balanceScan prev st.1 st.2 cs =
      ((cs.zip (prev :: cs.map some)).foldl specScanStep st).2 := by
  induction cs with
  | nil => intro prev st; simp [balanceScan]
  | cons c cs ih =>
    intro prev st
    obtain ⟨inside, stack⟩ := st
    have hz : (c :: cs).zip (prev :: (c :: cs).map some) =
        (c, prev) :: cs.zip (some c :: cs.map some) := rfl
    rw [hz, List.foldl_cons, ← ih (some c) (specScanStep (inside, stack) (c, prev))]
    rcases stack with _ | ⟨top, rest⟩ <;>
      simp only [balanceScan, specScanStep] <;>
      split_ifs <;> rfl

theorem balanceScan_eq_foldl (prev : Option Char) (inside : Bool)
    (stack cs : List Char) :
    balanceScan prev inside stack cs =
      ((cs.zip (prev :: cs.map some)).foldl specScanStep (inside, stack)).2 :=
  balanceScan_eq_foldl_pair cs prev (inside, stack)

/-- C3: the repair routine performs exactly the four spec-described
transformations in order — (a) drop a single trailing comma from the
trimmed text, (b) append one closing quote iff the count of unescaped
double quotes is odd, (c) scan left to right outside strings pushing the
matching closer for each opener and popping only on an exactly-matching
closer, (d) append the surviving stack in LIFO order.  `repairSpec` is
built from the words of the spec; the source translation `repairJSON` agrees
with it on every input. -/
theorem repairJSON_eq_repairSpec : ∀ s : String, repairJSON s = repairSpec s := by
  intro s
  have hmod : ∀ n : Nat, (n % 2 ≠ 0) = (n % 2 = 1) := fun n => propext (by omega)
  unfold repairJSON repairChars repairSpec specCloseDanglingQuote
    specDropTrailingComma specMissingClosers specUnescapedQuoteCount withPrev
  simp only [countQuotes_eq_countP, hmod, balanceScan_eq_foldl]

/-! ## Falsy-input short-circuit (C9) -/

/-- C9: for the empty (the only falsy) input text, `cleanAndParseJSON`
returns the empty object immediately — no payload location, no parse,
no repair, and no `JSONParseError` (the result is `ok`, not `error`). -/
theorem cleanAndParseJSON_empty_input : cleanAndParseJSON "" = .ok (.obj []) := rfl

/-! ## Truncated structuring response (C1) -/

/-- C1 counterexample: on the truncated response, a supplied `lboModel`
is used verbatim by the normalizer, so the remaining `lboModel` fields
are absent (`undefined`), not `0`: the claim that `entryMultiple`
equals 0 fails at this input. -/
theorem c1_lboModel_not_defaulted :
    ∃ r, (cleanAndParseJSON c1ResponseText).bind (fun j => sanitizeDealData j "Acme") = .ok r ∧
      getPropD ((getPropD r "lboModel").getD .null) "entryMultiple" = none ∧
      ((getPropD ((getPropD r "lboModel").getD .null) "entryMultiple" =
        some (.num jzero)) = False) := by
  refine ⟨_, rfl, rfl, eq_false ?_⟩
  exact fun h => Option.noConfusion h

/-- C1 (amended): repairing and parsing the truncated structuring
response and normalizing with fallback name `Acme` yields
`companyName = "Acme"`, `ebitda = 12` and `lboModel.irr = 25`; the
remaining `lboModel` fields (`entryMultiple`, `exitMultiple`, `moic`,
`debttoEquity`) are absent from the record (`undefined`), because
`sanitizeDealData` keeps a supplied `lboModel` verbatim instead of
defaulting its fields. -/
theorem c1_truncated_structuring_amended :
    ∃ r, (cleanAndParseJSON c1ResponseText).bind (fun j => sanitizeDealData j "Acme") = .ok r ∧
      getPropD r "companyName" = some (.str "Acme") ∧
      getPropD r "ebitda" = some (.num (jint 12)) ∧
      getPropD ((getPropD r "lboModel").getD .null) "irr" = some (.num (jint 25)) ∧
      getPropD ((getPropD r "lboModel").getD .null) "entryMultiple" = none ∧
      getPropD ((getPropD r "lboModel").getD .null) "exitMultiple" = none ∧
      getPropD ((getPropD r "lboModel").getD .null) "moic" = none ∧
      getPropD ((getPropD r "lboModel").getD .null) "debttoEquity" = none :=
  ⟨_, rfl, rfl, rfl, rfl, rfl, rfl, rfl, rfl⟩

/-! ## `candidatesAnalyzed` overwrite (C10) -/

theorem lookupKey_insertKey_self (kvs : List (String × Json)) (k : String) (v : Json) :
    lookupKey (insertKey kvs k v) k = some v := by
  induction kvs with
  | nil => simp [insertKey, lookupKey]
  | cons p rest ih =>
    obtain ⟨k', v'⟩ := p
    by_cases h : k' = k <;> simp [insertKey, lookupKey, h, ih]

/-- C10: every successful `generateDealStructure` call returns a record
whose `candidatesAnalyzed` equals the `candidates` argument exactly,
regardless of what the parsed model response supplied for that field. -/
theorem generateDealStructure_overwrites_candidates
    (responseText companyName : String) (candidates : List String) (d : Json)
    (h : generateDealStructure responseText companyName candidates = .ok d) :
    getPropD d "candidatesAnalyzed" = some (.arr (candidates.map Json.str)) := by
  unfold generateDealStructure at h
  rcases hp : cleanAndParseJSON (if responseText = "" then "\x7b\x7d" else responseText) with e | rawJSON <;>
    rw [hp] at h <;> simp at h
  rcases hs : sanitizeDealData rawJSON companyName with e | data <;>
    rw [hs] at h <;> simp at h
  rw [← h]
  unfold sanitizeDealData at hs
  rcases rawJSON with _ | b | n | s | xs | kvs | iso <;> simp at hs <;>
    rw [← hs] <;>
    simp [setProp, getPropD, lookupKey_insertKey_self]

/-- Witness for C10: the parsed response itself supplies a different
`candidatesAnalyzed` value (`["X"]`), and the returned record still
carries exactly the `candidates` argument. -/
theorem generateDealStructure_overwrites_candidates_witness :
    ∃ d, generateDealStructure c10ResponseText "Acme" ["A", "B"] = .ok d ∧
      getPropD d "candidatesAnalyzed" = some (.arr [.str "A", .str "B"]) := by
  refine ⟨_, rfl, ?_⟩
  exact generateDealStructure_overwrites_candidates c10ResponseText "Acme" ["A", "B"] _ rfl

/-! ## Normalizer totality (C2) -/

theorem lookupKey_insertKey_isSome (kvs : List (String × Json)) (k k' : String)
    (v : Json) (h : (lookupKey kvs k).isSome = true) :
    (lookupKey (insertKey kvs k' v) k).isSome = true := by
  induction kvs with
  | nil => simp [lookupKey] at h
  | cons p rest ih =>
    obtain ⟨k0, v0⟩ := p
    by_cases h0 : k0 = k'
    · by_cases h1 : k0 = k
      · subst h1; simp [insertKey, lookupKey, h0]
      · simp only [lookupKey, if_neg h1] at h
        simp only [insertKey, lookupKey, if_pos h0]
        by_cases h2 : k' = k
        · exact absurd (h0.trans h2) h1
        · simp [h1, h]
    · by_cases h1 : k0 = k
      · have h2 : ¬(k = k') := h1 ▸ h0
        simp [insertKey, lookupKey, h0, h1, h2]
      · simp only [lookupKey, if_neg h1] at h
        simp [insertKey, lookupKey, h0, h1]
        exact ih h

theorem lookupKey_mergeSpread_isSome (ov : List (String × Json)) :
    ∀ base k, (lookupKey base k).isSome = true →
    (lookupKey (mergeSpread base ov) k).isSome = true := by
  induction ov with
  | nil => intro base k h; simpa [mergeSpread] using h
  | cons p rest ih =>
    intro base k h
    have hstep : mergeSpread base (p :: rest) =
        mergeSpread (insertKey base p.1 p.2) rest := rfl
    rw [hstep]
    exact ih _ _ (lookupKey_insertKey_isSome base k p.1 p.2 h)

theorem isP_jsOr (d : Json) (k : String) (p : Json → Bool) (dflt : Json)
    (h : fieldRespects d k p = true) (hd : p dflt = true) :
    p (jsOr (getPropD d k) dflt) = true := by
  unfold fieldRespects at h
  unfold jsOr
  cases hkv : getPropD d k with
  | none => simpa using hd
  | some v =>
    rw [hkv] at h
    by_cases ht : truthy v = true <;> simp [ht] at h ⊢
    · exact h
    · exact hd

/-- C2: the normalizer is total on its input range and fully shapes its
output — for any object input whose composite fields, when supplied and
truthy, already have the documented container type (leaf values are
unconstrained), `sanitizeDealData` does not raise and returns a record
with every documented top-level field present, every composite field of
the documented container type, and every documented memo field present
(the memo is defaulted field by field; nested defaulting of the other
composite fields is structural, per the spec).  The empty object is in
the range and yields the fully-defaulted record. -/
theorem sanitizeDealData_totality (kvs : List (String × Json)) (name : String)
    (h : wellShapedInput (Json.obj kvs) = true) :
    ∃ r, sanitizeDealData (Json.obj kvs) name = .ok (.obj r) ∧
      dealShapeOK (.obj r) = true := by
  refine ⟨sanitizedFields (Json.obj kvs) name, rfl, ?_⟩
  simp only [wellShapedInput, containerKindOf, List.all_cons, List.all_nil,
    Bool.and_true, Bool.and_eq_true] at h
  obtain ⟨h1, h2, h3, h4, h5, h6, h7, h8, h9⟩ := h
  rw [dealShapeOK, Bool.and_eq_true, Bool.and_eq_true]
  refine ⟨⟨rfl, ?_⟩, ?_⟩
  · simp only [containerKindOf, List.all_cons, List.all_nil, Bool.and_true,
      Bool.and_eq_true]
    exact ⟨isP_jsOr _ _ _ _ h1 rfl, isP_jsOr _ _ _ _ h2 rfl,
      isP_jsOr _ _ _ _ h3 rfl, rfl, isP_jsOr _ _ _ _ h5 rfl,
      isP_jsOr _ _ _ _ h6 rfl, isP_jsOr _ _ _ _ h7 rfl,
      isP_jsOr _ _ _ _ h8 rfl, isP_jsOr _ _ _ _ h9 rfl⟩
  · simp only [memoKeys, List.all_cons, List.all_nil, Bool.and_true,
      Bool.and_eq_true]
    exact ⟨lookupKey_mergeSpread_isSome _ _ _ rfl, lookupKey_mergeSpread_isSome _ _ _ rfl,
      lookupKey_mergeSpread_isSome _ _ _ rfl, lookupKey_mergeSpread_isSome _ _ _ rfl,
      lookupKey_mergeSpread_isSome _ _ _ rfl, lookupKey_mergeSpread_isSome _ _ _ rfl,
      lookupKey_mergeSpread_isSome _ _ _ rfl, lookupKey_mergeSpread_isSome _ _ _ rfl,
      lookupKey_mergeSpread_isSome _ _ _ rfl, lookupKey_mergeSpread_isSome _ _ _ rfl,
      lookupKey_mergeSpread_isSome _ _ _ rfl⟩

/-- Witness for C2: the empty object is in the input range and yields a
fully-shaped (fully-defaulted) record. -/
theorem sanitizeDealData_totality_witness :
    ∃ r, sanitizeDealData (Json.obj []) "Acme" = .ok (.obj r) ∧
      dealShapeOK (.obj r) = true :=
  sanitizeDealData_totality [] "Acme" rfl

/-! ## Step Runner contract (C5) -/

theorem allStatus_after_updateAgentFull (st : AppState) (role : AgentRole)
    (s : AgentStatus) (task : Option String) :
    allStatus (agentsWithRole (updateAgentFull st role s task) role) s = true := by
  rw [allStatus, List.all_eq_true]
  intro a ha
  rw [agentsWithRole, List.mem_filter] at ha
  obtain ⟨hmem, hrole⟩ := ha
  simp only [updateAgentFull] at hmem
  rw [List.mem_map] at hmem
  obtain ⟨c, hc, rfl⟩ := hmem
  by_cases h : c.role = role
  · simp [h]
  · simp only [if_neg h, beq_iff_eq] at hrole
    exact absurd hrole h

/-- C5: every `runStep` invocation appends exactly one log record and
leaves the named agent terminal.  When the work resolves, the record has
completed status and the agent ends idle, and the result is returned
unchanged; when the work rejects, the record has error status carrying
the failure message, the agent ends errored, and the original error
value is re-thrown unchanged (the shallow embedding states reference
identity as equality of the propagated error value).  The agent is never
left at working status. -/
theorem runStep_contract {α : Type} (st : AppState) (role : AgentRole)
    (desc traceId : String) (outcome : Except String α) :
    (runStep st role desc outcome traceId).1.logs.length = st.logs.length + 1 ∧
    (match outcome with
     | .ok r =>
       (runStep st role desc outcome traceId).2 = .ok r ∧
       (runStep st role desc outcome traceId).1.logs =
         st.logs ++ [{ traceId := some traceId, agentName := agentNameFor role,
                       role := role, message := desc ++ " - Completed",
                       status := .completed, errorDetails := none }] ∧
       allStatus (agentsWithRole (runStep st role desc outcome traceId).1 role)
         .idle = true
     | .error e =>
       (runStep st role desc outcome traceId).2 = .error e ∧
       (runStep st role desc outcome traceId).1.logs =
         st.logs ++ [{ traceId := some traceId, agentName := agentNameFor role,
                       role := role, message := "FAILED: " ++ desc,
                       status := .error, errorDetails := some ⟨e, desc⟩ }] ∧
       allStatus (agentsWithRole (runStep st role desc outcome traceId).1 role)
         .error = true) := by
  cases outcome with
  | ok r =>
    refine ⟨?_, rfl, rfl, ?_⟩
    · simp [runStep, appendLog, updateAgentFull]
    · exact allStatus_after_updateAgentFull _ _ _ _
  | error e =>
    refine ⟨?_, rfl, rfl, ?_⟩
    · simp [runStep, appendLog, updateAgentFull]
    · exact allStatus_after_updateAgentFull _ _ _ _

/-! ## Concept-image generation (C7) -/

/-- C7: the concept-image step never raises — its embedded return type
is an `Option`, every failure path being caught in the source.  On a
primary-model failure whose message contains a permission/quota-class
substring (`403`, `PERMISSION_DENIED`, `Quota`) it retries exactly once
against the fallback model with the reduced configuration (`imageSize`
omitted); on any other failure it returns null without retrying; if the
fallback also fails, or a response carries no image part
(`firstInlineImage` is `none`), the result is null. -/
theorem generateConceptImage_contract
    (oracle : ImageCall → Except String ImageResponse) :
    match oracle primaryImageCall with
    | .ok resp =>
      generateConceptImage oracle = (firstInlineImage resp, [primaryImageCall])
    | .error e =>
      if isPermQuotaError e then
        fallbackImageCall.config.imageSize = none ∧
        (match oracle fallbackImageCall with
         | .ok resp2 =>
           generateConceptImage oracle =
             (firstInlineImage resp2, [primaryImageCall, fallbackImageCall])
         | .error _ =>
           generateConceptImage oracle =
             (none, [primaryImageCall, fallbackImageCall]))
      else generateConceptImage oracle = (none, [primaryImageCall]) := by
  rcases hp : oracle primaryImageCall with e | resp
  · by_cases hq : isPermQuotaError e
    · rcases hf : oracle fallbackImageCall with e2 | resp2 <;>
        simp [generateConceptImage, hp, hf, hq] <;> rfl
    · simp [generateConceptImage, hp, hq]
  · simp [generateConceptImage, hp]

/-! ## Deal-collection hydration and legacy migration (C8) -/

/-- C8: when the multi-deal key is absent — or holds the empty string,
which the truthiness guard `if (savedDeals)` treats the same way — and
the legacy single-deal key deserializes (with the date reviver) to a
deal-shaped value — truthy with a truthy `companyName` — hydration
wraps that single value into a one-element collection
(`id = "legacy-migration"`, `data` = the legacy value) and proceeds
with it; a missing key or a failing deserialization falls back to the
empty collection, and the initializer is total, so hydration never
prevents startup. -/
theorem hydrateDeals_migration (now s t : String) (p : Json)
    (hs : parseJsonRevive s = some p)
    (hp : truthy p = true)
    (hc : truthy ((getPropD p "companyName").getD .null) = true)
    (ht : parseJsonRevive t = none) (htne : t ≠ "") :
    hydrateDeals none (some s) now = .arr [wrapLegacyDeal p now] ∧
    hydrateDeals (some "") (some s) now = .arr [wrapLegacyDeal p now] ∧
    hydrateDeals none none now = .arr [] ∧
    hydrateDeals none (some t) now = .arr [] ∧
    hydrateDeals (some t) (some s) now = .arr [] := by
  have hsne : s ≠ "" := by
    intro h
    rw [h, show parseJsonRevive "" = none from rfl] at hs
    exact Option.noConfusion hs
  refine ⟨?_, ?_, rfl, ?_, ?_⟩
  · simp [hydrateDeals, hydrateLegacy, hsne, hs, hp, hc]
  · simp [hydrateDeals, hydrateLegacy, hsne, hs, hp, hc]
  · by_cases h : t = "" <;> simp [hydrateDeals, hydrateLegacy, h, ht]
  · simp [hydrateDeals, hydrateLegacy, htne, ht]

/-- Witness for C8: a concrete legacy blob is wrapped into a one-element
collection — with the new key missing and with the new key stored as
the empty string — and the failure inputs fall back to the empty
collection. -/
theorem hydrateDeals_migration_witness :
    hydrateDeals none (some c8LegacyText) "2024-05-01T10:00:00" =
      .arr [wrapLegacyDeal (.obj [("companyName", .str "Acme")]) "2024-05-01T10:00:00"] ∧
    hydrateDeals (some "") (some c8LegacyText) "2024-05-01T10:00:00" =
      .arr [wrapLegacyDeal (.obj [("companyName", .str "Acme")]) "2024-05-01T10:00:00"] ∧
    hydrateDeals none none "2024-05-01T10:00:00" = .arr [] ∧
    hydrateDeals none (some "oops") "2024-05-01T10:00:00" = .arr [] ∧
    hydrateDeals (some "oops") (some c8LegacyText) "2024-05-01T10:00:00" = .arr [] :=
  hydrateDeals_migration "2024-05-01T10:00:00" c8LegacyText "oops"
    (.obj [("companyName", .str "Acme")]) rfl rfl rfl rfl (by decide)

/-! ## Run abort on zero candidates (C6) -/

/-- C6: in a sourcing run whose candidate search resolves with an empty
list, the zero-candidates error is raised before the structuring step
(or any later step) executes — the external calls made are exactly
strategy and scout; no Deal Record is committed (the deal collection is
unchanged apart from the empty room `createNewDealRoom` adds up front
when no deal was active, whose data stays the default); every agent is
left at error visible-status; and exactly one system-authored error
message is appended after the user message and the strategy reply. -/
theorem runSourcing_zero_candidates (st0 : AppState) (o : SourcingOracle)
    (text traceId newDealId s : String)
    (hmd : o.mdStrategy = .ok s) (hscout : o.scout = .ok []) :
    (runSourcing st0 o text traceId newDealId).2 = ["mdStrategy", "scout"] ∧
    (runSourcing st0 o text traceId newDealId).1.deals =
      (match st0.activeDealId with
       | some _ => st0.deals
       | none => st0.deals ++ [newDealRoom newDealId "Sourcing Scan"]) ∧
    allStatus (runSourcing st0 o text traceId newDealId).1.agents .error = true ∧
    (runSourcing st0 o text traceId newDealId).1.messages.map
        (fun m => (m.role, m.content)) =
      st0.messages.map (fun m => (m.role, m.content)) ++
      [(.user, text), (.model, s),
       (.system, "Pipeline Execution Failed: " ++ zeroTargetsMsg ++
         ". \n\nCheck the System Log for details.")] ∧
    (runSourcing st0 o text traceId newDealId).1.isProcessing = false := by
  cases hA : st0.activeDealId <;>
    simp [runSourcing, hmd, hscout, hA, runStep, addMessage, updateAgentFull,
      updateAgentStatus, appendLog, pipelineCatch, pipelineFinally,
      setAllAgentsError, allStatus, List.all_map, Function.comp]

/-- Witness for C6: a concrete fresh-state sourcing run whose scout
returns no candidates aborts with only strategy and scout executed. -/
theorem runSourcing_zero_candidates_witness :
    (runSourcing
      { agents := INITIAL_AGENTS, deals := [], activeDealId := none,
        messages := [], logs := [], isProcessing := false, activeEdge := none }
      { mdStrategy := .ok "Strategy set.", scout := .ok [],
        select := .error "unused", deepDive := .error "unused",
        structuring := .error "unused", verifyLoc := .error "unused",
        conceptImage := none, finalOpinion := .error "unused" }
      "find deals" "TRACE1" "1700000000000").2 = ["mdStrategy", "scout"] ∧
    (runSourcing
      { agents := INITIAL_AGENTS, deals := [], activeDealId := none,
        messages := [], logs := [], isProcessing := false, activeEdge := none }
      { mdStrategy := .ok "Strategy set.", scout := .ok [],
        select := .error "unused", deepDive := .error "unused",
        structuring := .error "unused", verifyLoc := .error "unused",
        conceptImage := none, finalOpinion := .error "unused" }
      "find deals" "TRACE1" "1700000000000").1.deals =
      [newDealRoom "1700000000000" "Sourcing Scan"] ∧
    allStatus (runSourcing
      { agents := INITIAL_AGENTS, deals := [], activeDealId := none,
        messages := [], logs := [], isProcessing := false, activeEdge := none }
      { mdStrategy := .ok "Strategy set.", scout := .ok [],
        select := .error "unused", deepDive := .error "unused",
        structuring := .error "unused", verifyLoc := .error "unused",
        conceptImage := none, finalOpinion := .error "unused" }
      "find deals" "TRACE1" "1700000000000").1.agents .error = true ∧
    (runSourcing
      { agents := INITIAL_AGENTS, deals := [], activeDealId := none,
        messages := [], logs := [], isProcessing := false, activeEdge := none }
      { mdStrategy := .ok "Strategy set.", scout := .ok [],
        select := .error "unused", deepDive := .error "unused",
        structuring := .error "unused", verifyLoc := .error "unused",
        conceptImage := none, finalOpinion := .error "unused" }
      "find deals" "TRACE1" "1700000000000").1.messages.map
        (fun m => (m.role, m.content)) =
      [(.user, "find deals"), (.model, "Strategy set."),
       (.system, "Pipeline Execution Failed: " ++ zeroTargetsMsg ++
         ". \n\nCheck the System Log for details.")] ∧
    (runSourcing
      { agents := INITIAL_AGENTS, deals := [], activeDealId := none,
        messages := [], logs := [], isProcessing := false, activeEdge := none }
      { mdStrategy := .ok "Strategy set.", scout := .ok [],
        select := .error "unused", deepDive := .error "unused",
        structuring := .error "unused", verifyLoc := .error "unused",
        conceptImage := none, finalOpinion := .error "unused" }
      "find deals" "TRACE1" "1700000000000").1.isProcessing = false :=
  runSourcing_zero_candidates
    { agents := INITIAL_AGENTS, deals := [], activeDealId := none,
      messages := [], logs := [], isProcessing := false, activeEdge := none }
    { mdStrategy := .ok "Strategy set.", scout := .ok [],
      select := .error "unused", deepDive := .error "unused",
      structuring := .error "unused", verifyLoc := .error "unused",
      conceptImage := none, finalOpinion := .error "unused" }
    "find deals" "TRACE1" "1700000000000" "Strategy set." rfl rfl

/-! ## Sanitizer on embedded well-formed JSON (C4) -/

theorem replAllGo_no_backtick (p : List Char) : ∀ fuel cs,
    noBackticks cs = true → replAllGo ('`' :: p) fuel cs = cs := by
  intro fuel
  induction fuel with
  | zero => intro cs _; cases cs <;> rfl
  | succ n ih =>
    intro cs h
    cases cs with
    | nil => rfl
    | cons c rest =>
      simp only [noBackticks, List.all_cons, Bool.and_eq_true, bne_iff_ne,
        ne_eq, decide_eq_true_eq] at h
      obtain ⟨hc, hrest⟩ := h
      have hpre : ('`' :: p).isPrefixOf (c :: rest) = false := by
        simp only [List.isPrefixOf, Bool.and_eq_false_iff]
        left
        simp only [beq_eq_false_iff_ne, ne_eq]
        exact fun hq => hc hq.symm
      simp only [replAllGo, hpre, Bool.false_eq_true, if_false, List.cons.injEq,
        true_and]
      exact ih rest (by simpa [noBackticks] using hrest)

theorem replAll_fenceJson_id (cs : List Char) (h : noBackticks cs = true) :
    replAll fenceJsonPat cs = cs :=
  replAllGo_no_backtick _ cs.length cs h

theorem replAll_fence_id (cs : List Char) (h : noBackticks cs = true) :
    replAll fencePat cs = cs :=
  replAllGo_no_backtick _ cs.length cs h

theorem dropWhile_append_of_head_false (p : Char → Bool) (a : List Char)
    (c : Char) (t : List Char) (hc : p c = false) :
    (a ++ c :: t).dropWhile p = a.dropWhile p ++ c :: t := by
  rw [List.dropWhile_append]
  rcases he : (a.dropWhile p).isEmpty with _ | _
  · simp [he, List.dropWhile_cons, hc]
  · have : a.dropWhile p = [] := by simpa [List.isEmpty_iff] using he
    simp [he, this, List.dropWhile_cons, hc]

theorem dropWhile_append_of_all (p : Char → Bool) (a b : List Char)
    (ha : a.all p = true) : (a ++ b).dropWhile p = b.dropWhile p := by
  rw [List.dropWhile_append]
  have : a.dropWhile p = [] := by
    rw [List.dropWhile_eq_nil_iff]
    rw [List.all_eq_true] at ha
    exact fun x hx => ha x hx
  simp [this]

theorem dropWhile_of_head_false (p : Char → Bool) (l : List Char) (c : Char)
    (h : l.head? = some c) (hc : p c = false) : l.dropWhile p = l := by
  cases l with
  | nil => rfl
  | cons x t =>
    simp only [List.head?_cons, Option.some.injEq] at h
    subst h
    simp [List.dropWhile_cons, hc]

theorem trimJS_concat (pre doc post : List Char)
    (hpost : post.all isJsWs = true)
    (hhead : startsWithBracket doc = true)
    (hlast : endsNonWs doc = true) :
    trimJS (pre ++ doc ++ post) = ltrimJS pre ++ doc := by
  rcases doc with _ | ⟨c0, t⟩
  · simp [startsWithBracket] at hhead
  · have hc0 : isJsWs c0 = false := by
      have h2 : c0 = '{' ∨ c0 = '[' := by
        simpa [startsWithBracket] using hhead
      rcases h2 with h | h <;> subst h <;> decide
    obtain ⟨cL, hcL⟩ : ∃ cL, (c0 :: t).getLast? = some cL :=
      ⟨(c0 :: t).getLast (by simp), List.getLast?_eq_getLast _ (by simp)⟩
    have hcLw : isJsWs cL = false := by
      have := hlast
      rw [endsNonWs, hcL] at this
      simpa using this
    unfold trimJS ltrimJS
    have stepA : (pre ++ (c0 :: t) ++ post).dropWhile isJsWs =
        pre.dropWhile isJsWs ++ (c0 :: (t ++ post)) := by
      rw [List.append_assoc]
      exact dropWhile_append_of_head_false isJsWs pre c0 (t ++ post) hc0
    rw [stepA]
    have stepRev : (pre.dropWhile isJsWs ++ (c0 :: (t ++ post))).reverse =
        post.reverse ++ ((c0 :: t).reverse ++ (pre.dropWhile isJsWs).reverse) := by
      simp
    rw [stepRev]
    have stepB : (post.reverse ++ ((c0 :: t).reverse ++ (pre.dropWhile isJsWs).reverse)).dropWhile isJsWs =
        ((c0 :: t).reverse ++ (pre.dropWhile isJsWs).reverse).dropWhile isJsWs :=
      dropWhile_append_of_all isJsWs _ _ (by simpa using hpost)
    rw [stepB]
    have stepC : ((c0 :: t).reverse ++ (pre.dropWhile isJsWs).reverse).dropWhile isJsWs =
        (c0 :: t).reverse ++ (pre.dropWhile isJsWs).reverse := by
      apply dropWhile_of_head_false isJsWs _ cL _ hcLw
      rw [List.head?_append]
      rw [List.head?_reverse, hcL]
      rfl
    rw [stepC]
    simp

theorem idxOf?_append_of_all_ne (c : Char) (d : List Char) : ∀ L : List Char,
    L.all (fun x => x != c) = true →
    idxOf? c (L ++ d) = (idxOf? c d).map (L.length + ·) := by
  intro L
  induction L with
  | nil =>
    intro _
    cases h : idxOf? c d <;> simp [h]
  | cons x L ih =>
    intro h
    simp only [List.all_cons, Bool.and_eq_true, bne_iff_ne, ne_eq,
      decide_eq_true_eq] at h
    obtain ⟨hx, hL⟩ := h
    have : idxOf? c (x :: (L ++ d)) = (idxOf? c (L ++ d)).map (· + 1) := by
      simp [idxOf?, hx]
    rw [List.cons_append, this, ih (by simpa using hL)]
    cases hd : idxOf? c d <;> simp [hd] <;> omega

theorem payloadStart_concat (L d : List Char)
    (hL : noPayloadChars L = true) (hd : startsWithBracket d = true) :
    payloadStart (L ++ d) = some L.length := by
  rw [noPayloadChars, List.all_eq_true] at hL
  have hL1 : L.all (fun x => x != '{') = true := by
    rw [List.all_eq_true]
    intro x hx
    have := hL x hx
    revert this
    simp only [Bool.not_eq_true', Bool.or_eq_false_iff, decide_eq_false_iff_not,
      bne_iff_ne, ne_eq, decide_eq_true_eq]
    exact fun h => h.1.1
  have hL2 : L.all (fun x => x != '[') = true := by
    rw [List.all_eq_true]
    intro x hx
    have := hL x hx
    revert this
    simp only [Bool.not_eq_true', Bool.or_eq_false_iff, decide_eq_false_iff_not,
      bne_iff_ne, ne_eq, decide_eq_true_eq]
    exact fun h => h.1.2
  rcases d with _ | ⟨c0, t⟩
  · simp [startsWithBracket] at hd
  · have h2 : c0 = '{' ∨ c0 = '[' := by simpa [startsWithBracket] using hd
    rcases h2 with h | h <;> subst h
    · have e1 : idxOf? '{' (L ++ '{' :: t) = some L.length := by
        rw [idxOf?_append_of_all_ne _ _ _ hL1]
        simp [idxOf?]
      have e2 : idxOf? '[' (L ++ '{' :: t) =
          ((idxOf? '[' t).map (· + 1)).map (L.length + ·) := by
        rw [idxOf?_append_of_all_ne _ _ _ hL2]
        simp [idxOf?]
      rw [payloadStart, e1, e2]
      cases hk : idxOf? '[' t <;> simp [hk]
    · have e1 : idxOf? '[' (L ++ '[' :: t) = some L.length := by
        rw [idxOf?_append_of_all_ne _ _ _ hL2]
        simp [idxOf?]
      have e2 : idxOf? '{' (L ++ '[' :: t) =
          ((idxOf? '{' t).map (· + 1)).map (L.length + ·) := by
        rw [idxOf?_append_of_all_ne _ _ _ hL1]
        simp [idxOf?]
      rw [payloadStart, e1, e2]
      cases hk : idxOf? '{' t <;> simp [hk]

theorem all_dropWhile_of_all (p q : Char → Bool) (l : List Char)
    (h : l.all q = true) : (l.dropWhile p).all q = true := by
  rw [List.all_eq_true] at h ⊢
  exact fun x hx => h x ((List.dropWhile_sublist p).subset hx)

theorem ws_not_backtick (c : Char) (h : isJsWs c = true) : (c != '`') = true := by
  rw [isJsWs] at h
  simp only [Bool.or_eq_true, decide_eq_true_eq] at h
  rcases h with ((((((h | h) | h) | h) | h) | h) | h) | h <;> subst h <;> decide

/-- C4 (amended): for a valid JSON payload embedded in surrounding text,
`cleanAndParseJSON` returns the parse of the payload provided the prose
before the payload contains no `{`, `[` or backtick, nothing but
whitespace follows the payload, and the payload starts with `{` or
`[`, ends in a non-whitespace character and contains no backtick (the
global fence stripping would corrupt a backtick inside the payload, and
any prose after the payload or an earlier bracket-like character in the
preamble makes the parse fail, per the counterexample).  The
markdown-fenced scenario holds as stated: the fences and the leading
prose are stripped and the embedded array is returned. -/
theorem cleanAndParseJSON_embedded_payload :
    (∀ (pre doc post : List Char) (v : Json),
      noPayloadChars pre = true →
      noBackticks doc = true →
      post.all isJsWs = true →
      startsWithBracket doc = true →
      endsNonWs doc = true →
      parseJsonList doc = some v →
      cleanAndParseJSON ⟨pre ++ doc ++ post⟩ = .ok v) ∧
    cleanAndParseJSON c4ScenarioText = .ok (.arr [.str "Acme", .str "Globex"]) := by
  refine ⟨?_, rfl⟩
  intro pre doc post v hpre hdoc hpost hhead hlast hparse
  have hdocne : doc ≠ [] := by
    rcases doc with _ | _
    · simp [startsWithBracket] at hhead
    · simp
  have hne : (⟨pre ++ doc ++ post⟩ : String) ≠ "" := by
    intro h
    have h2 : pre ++ doc ++ post = [] := congrArg String.data h
    rcases List.append_eq_nil.mp h2 with ⟨h3, _⟩
    exact hdocne (List.append_eq_nil.mp h3).2
  have hnb : noBackticks (pre ++ doc ++ post) = true := by
    rw [noBackticks, List.all_eq_true]
    intro x hx
    rcases List.mem_append.mp hx with hx2 | hx2
    · rcases List.mem_append.mp hx2 with hx3 | hx3
      · rw [noPayloadChars, List.all_eq_true] at hpre
        have := hpre x hx3
        revert this
        simp only [Bool.not_eq_true', Bool.or_eq_false_iff, decide_eq_false_iff_not,
          bne_iff_ne, ne_eq, decide_eq_true_eq]
        exact fun h => h.2
      · rw [noBackticks, List.all_eq_true] at hdoc
        exact hdoc x hx3
    · rw [List.all_eq_true] at hpost
      exact ws_not_backtick x (hpost x hx2)
  rw [cleanAndParseJSON, if_neg hne]
  have hdata : (⟨pre ++ doc ++ post⟩ : String).data = pre ++ doc ++ post := rfl
  rw [hdata, replAll_fenceJson_id _ hnb, replAll_fence_id _ hnb]
  simp only []
  rw [trimJS_concat _ _ _ hpost hhead hlast]
  have hLpc : noPayloadChars (ltrimJS pre) = true := by
    rw [noPayloadChars, ltrimJS]
    rw [noPayloadChars] at hpre
    exact all_dropWhile_of_all _ _ _ hpre
  rw [payloadStart_concat _ _ hLpc hhead]
  simp only [List.drop_left, hparse]

/-- Witness for C4: a concrete embedding — brace-free prose, a JSON
array payload, a whitespace suffix — parses to the embedded array. -/
theorem cleanAndParseJSON_embedded_payload_witness :
    cleanAndParseJSON ⟨"Result: ".data ++ "[1]".data ++ " ".data⟩ =
      .ok (.arr [.num (jint 1)]) :=
  cleanAndParseJSON_embedded_payload.1 "Result: ".data "[1]".data " ".data
    (.arr [.num (jint 1)]) (by decide) (by decide) (by decide) (by decide)
    (by decide) rfl

/-- C4 counterexample: the text `See { this: ["Acme"] done` embeds the
valid JSON document `["Acme"]` in surrounding prose, yet
`cleanAndParseJSON` raises (`JSONParseError`) instead of returning the
array: the brace in the leading prose misplaces the payload start, and
the trailing prose defeats both the parse and the repair. -/
theorem c4_prose_counterexample :
    parseJsonList "[\"Acme\"]".data = some (.arr [.str "Acme"]) ∧
    cleanAndParseJSON c4ProseWrappedText = .error "JSON Parse Failed" ∧
    ((∃ v, cleanAndParseJSON c4ProseWrappedText = .ok v) = False) := by
  refine ⟨rfl, rfl, eq_false ?_⟩
  rintro ⟨v, hv⟩
  rw [show cleanAndParseJSON c4ProseWrappedText = .error "JSON Parse Failed" from rfl] at hv
  exact Except.noConfusion hv
